import Mathlib

/-
Verification of the BedTimeESP firmware
(src/firmware/ESP8266-MQTT-HTTP/src/main.cpp).

Shallow embedding conventions:
- The EEPROM is a byte store `Nat → Nat`; `EEPROM.write` is a pointwise
  functional update, `EEPROM.commit` is modelled by a commit counter in the
  states that care about flash wear.
- C strings are `List Nat` of byte values; a C string value never contains
  a 0 byte, fixed-capacity char buffers are `List Nat` of the buffer length,
  and the value held by a buffer is its prefix up to the first NUL.
- `millis()` timestamps are `Nat`; the 32-bit `unsigned long` subtraction
  `now - last` of the source is `ulSub` (subtraction mod 2^32).
- Side effects (pin writes, persistence calls, MQTT connect/subscribe/
  publish) are recorded as explicit event traces.
-/

namespace BedTime

/-- EEPROM contents: byte value stored at each address. -/
abbrev Eeprom := Nat → Nat

/-- Function `EEPROM.write(a, v)` as a functional update. -/
def eepWrite (mem : Eeprom) (a v : Nat) : Eeprom :=
  fun x => if x = a then v else mem x

-- Addresses and constants from main.cpp.
def MAGIC_ADDR : Nat := 0
def MAGIC_VAL : Nat := 0xA5
def HOST_ADDR : Nat := 1
def SSID_ADDR : Nat := 33
def PASS_ADDR : Nat := 65
def APF_ADDR : Nat := 129
def STATE_ADDR : Nat := 130
def STATE_WRITE_MIN : Nat := 5000

/-- 32-bit `unsigned long` subtraction `a - b` (wraparound), as used on
`millis()` differences in the source. -/
def ulSub (a b : Nat) : Nat :=
  (a + (2 ^ 32 - b % 2 ^ 32)) % 2 ^ 32

/--
The `eWriteStr` loop body: for `i` from the given index up to `maxLen - 1`,
`EEPROM.write(addr + i, (i < n) ? s[i] : 0)` where `n = strlen(s)`.
-/
def eWriteStrFrom (mem : Eeprom) (addr : Nat) (s : List Nat) (maxLen i : Nat) :
    Eeprom :=
  if _h : i < maxLen then
    eWriteStrFrom
      (eepWrite mem (addr + i) (if i < s.length then s.getD i 0 else 0))
      addr s maxLen (i + 1)
  else mem
termination_by maxLen - i
decreasing_by omega

/-- Function `eWriteStr(addr, s, maxLen)` from main.cpp: write the string `s`
(its C-string value, i.e. a NUL-free byte list) into the window
`[addr, addr + maxLen)`, zero padded. -/
def eWriteStr (mem : Eeprom) (addr : Nat) (s : List Nat) (maxLen : Nat) :
    Eeprom :=
  eWriteStrFrom mem addr s maxLen 0

/--
The `eReadStr` loop body: for `i` from the given index up to `maxLen - 1`,
`buf[i] = EEPROM.read(addr + i); if (buf[i] == 0) break;`.
-/
def eReadStrLoop (mem : Eeprom) (addr : Nat) (buf : List Nat) (maxLen i : Nat) :
    List Nat :=
  if _h : i < maxLen then
    let b := mem (addr + i)
    let buf2 := buf.set i b
    if b = 0 then buf2 else eReadStrLoop mem addr buf2 maxLen (i + 1)
  else buf
termination_by maxLen - i
decreasing_by omega

/-- Function `eReadStr(addr, buf, maxLen)` from main.cpp: run the copy loop, then
`buf[maxLen - 1] = 0`. -/
def eReadStr (mem : Eeprom) (addr : Nat) (buf : List Nat) (maxLen : Nat) :
    List Nat :=
  (eReadStrLoop mem addr buf maxLen 0).set (maxLen - 1) 0

/-- The C-string value held in a buffer: its bytes up to the first NUL. -/
def cString (buf : List Nat) : List Nat :=
  buf.takeWhile (fun c => c != 0)

/-- The `n` bytes stored at `[addr, addr + n)`. -/
def window (mem : Eeprom) (addr n : Nat) : List Nat :=
  (List.range n).map fun i => mem (addr + i)

/-- A buffer of capacity `n` holding the string `s`: `s` (truncated to `n`)
followed by NUL padding. -/
def pad (s : List Nat) (n : Nat) : List Nat :=
  s.take n ++ List.replicate (n - s.length) 0

/-- Successive in-place writes into a buffer starting at index `i`
(the denotation of the `eReadStr` copy loop). -/
def setSeq (buf : List Nat) (i : Nat) : List Nat → List Nat
  | [] => buf
  | c :: t => setSeq (buf.set i c) (i + 1) t

-- ============================================================
-- Event traces
-- ============================================================

/-- Published payloads (serialised JSON documents or raw strings). -/
inductive PubPayload where
  | status (sw : Int) (state : String) (success : Bool)
  | heartbeat (id : String) (uptime : Nat)
  | raw (s : String)
deriving DecidableEq

/-- Observable side effects of the firmware operations. -/
inductive Ev where
  | pinWrite (level : Bool)
  | persistCall (v : Nat)
  | mqttConnect (clientId willTopic : String) (willQos : Nat)
      (willRetain : Bool) (willMsg : String)
  | mqttSubscribe (topic : String)
  | mqttPublish (topic : String) (payload : PubPayload) (retained : Bool)
deriving DecidableEq

def isPublish : Ev → Bool
  | Ev.mqttPublish _ _ _ => true
  | _ => false

-- MQTT topics from main.cpp.
def PUB_TOPIC : String := "home/switch/status"
def SUB_TOPIC : String := "home/switch/control"
def LWT_TOPIC : String := "home/switch/alert"
def HB_TOPIC : String := "home/switch/heartbeat"

-- ============================================================
-- saveRelayState (write-throttled persistence)
-- ============================================================

/-- State of the persistence subsystem: EEPROM contents, the
`lastStateWrite` timestamp (0 at boot), and a flash-commit counter. -/
structure PersistState where
  eeprom : Eeprom
  lastStateWrite : Nat
  commits : Nat

/-- Function `saveRelayState(s)` from main.cpp, with `millis()` passed as `now`:
a silent no-op when `now - lastStateWrite < STATE_WRITE_MIN` (32-bit
unsigned arithmetic), otherwise write the state byte, commit, and
record the write time. -/
def saveRelayState (st : PersistState) (now : Nat) (s : Nat) : PersistState :=
  if ulSub now st.lastStateWrite < STATE_WRITE_MIN then st
  else
    { eeprom := eepWrite st.eeprom STATE_ADDR (if s ≠ 0 then 1 else 0)
      lastStateWrite := now
      commits := st.commits + 1 }

/-- A sequence of `saveRelayState` calls, each a `(millis, state)` pair. -/
def runSaves (st : PersistState) (calls : List (Nat × Nat)) : PersistState :=
  calls.foldl (fun acc c => saveRelayState acc c.1 c.2) st

-- ============================================================
-- applyRelay (actuator controller)
-- ============================================================

/-- Actuator-relevant state: canonical relay state (C `int` 0/1), the
physical pin level (`true` = HIGH), and the persistence state. -/
structure RelayCtx where
  relayState : Nat
  pin : Bool
  persist : PersistState

/-- Function `applyRelay(s)` from main.cpp: normalise to 0/1, unconditionally
re-drive the pin, then call `saveRelayState`.  The event trace records
the pin write and the persistence call. -/
def applyRelay (ctx : RelayCtx) (now : Nat) (s : Nat) : RelayCtx × List Ev :=
  let rs := if s ≠ 0 then 1 else 0
  let level := rs ≠ 0
  ({ relayState := rs
     pin := level
     persist := saveRelayState ctx.persist now rs },
   [Ev.pinWrite level, Ev.persistCall rs])

-- ============================================================
-- mqttCallback (inbound command handling)
-- ============================================================

/-- An inbound command payload after `deserializeJson` and the two
`is<...>` type checks: either the parse failed, or the two fields are
each present with the right type (`some`) or absent/mistyped (`none`). -/
inductive CmdPayload where
  | malformed
  | fields (sw : Option Int) (cmd : Option String)

/-- Function `mqttCallback` from main.cpp: parse failures, missing/mistyped
fields and a non-matching target are silently dropped; `"on"`/`"off"`
commands call `applyRelay` (two independent `if`s in the source). -/
def mqttCallback (ctx : RelayCtx) (now : Nat) (p : CmdPayload) :
    RelayCtx × List Ev :=
  match p with
  | CmdPayload.malformed => (ctx, [])
  | CmdPayload.fields sw cmd =>
    match sw, cmd with
    | some swv, some c =>
      if swv ≠ 1 then (ctx, [])
      else
        let r1 := if c = "on" then applyRelay ctx now 1 else (ctx, [])
        let r2 := if c = "off" then applyRelay r1.1 now 0 else (r1.1, [])
        (r2.1, r1.2 ++ r2.2)
    | _, _ => (ctx, [])

-- ============================================================
-- mqttReconnect (session bring-up)
-- ============================================================

/-- Function `mqttReconnect` from main.cpp, as the event trace of one call.
`connected` is `mqtt.connected()`, `connectOk` is whether
`mqtt.connect(...)` succeeds, `clientId` is `"rs-" + chipId` and
`relayState` the current actuator state.  The connect attempt registers
the last-will (topic `LWT_TOPIC`, QoS 1, retained, payload
`clientId + " lost"`); on success the client subscribes to `SUB_TOPIC`
and publishes the status document retained on `PUB_TOPIC`. -/
def mqttReconnect (connected connectOk : Bool) (clientId : String)
    (relayState : Nat) : List Ev :=
  if connected then []
  else
    let lwt := clientId ++ " lost"
    Ev.mqttConnect clientId LWT_TOPIC 1 true lwt ::
      (if !connectOk then []
       else [Ev.mqttSubscribe SUB_TOPIC,
             Ev.mqttPublish PUB_TOPIC
               (PubPayload.status 1 (if relayState ≠ 0 then "on" else "off")
                 true) true])

-- ============================================================
-- loadConfig / saveConfigWiFi / handleSave (configuration store)
-- ============================================================

/-- The global configuration buffers of main.cpp: `hostnameLocal[32]`,
`storedSSID[32]`, `storedPASS[64]`, `apFallback`, `relayState`. -/
structure Config where
  hostnameLocal : List Nat
  storedSSID : List Nat
  storedPASS : List Nat
  apFallback : Bool
  relayState : Nat

/-- The byte values of `"remoteswitch"`, the initialiser of
`hostnameLocal`. -/
def hostDefaultStr : List Nat :=
  [114, 101, 109, 111, 116, 101, 115, 119, 105, 116, 99, 104]

/-- The global initialisers of main.cpp (the values the globals hold when
`setup()` runs `loadConfig()`). -/
def bootConfig : Config :=
  { hostnameLocal := pad hostDefaultStr 32
    storedSSID := pad [] 32
    storedPASS := pad [] 64
    apFallback := true
    relayState := 0 }

/-- Function `loadConfig()` from main.cpp, parameterised by the incoming EEPROM
contents and the current globals `g`: on a magic-byte mismatch write the
defaults (the current global values) and the magic byte, commit; then in
either case read every field back into the globals. -/
def loadConfig (mem : Eeprom) (g : Config) : Eeprom × Config :=
  let mem1 :=
    if mem MAGIC_ADDR ≠ MAGIC_VAL then
      let m1 := eWriteStr mem HOST_ADDR (cString g.hostnameLocal) 32
      let m2 := eWriteStr m1 SSID_ADDR [] 32
      let m3 := eWriteStr m2 PASS_ADDR [] 64
      let m4 := eepWrite m3 APF_ADDR (if g.apFallback then 1 else 0)
      let m5 := eepWrite m4 STATE_ADDR (if g.relayState ≠ 0 then 1 else 0)
      eepWrite m5 MAGIC_ADDR MAGIC_VAL
    else mem
  (mem1,
   { hostnameLocal := eReadStr mem1 HOST_ADDR g.hostnameLocal 32
     storedSSID := eReadStr mem1 SSID_ADDR g.storedSSID 32
     storedPASS := eReadStr mem1 PASS_ADDR g.storedPASS 64
     apFallback := mem1 APF_ADDR == 1
     relayState := if mem1 STATE_ADDR = 1 then 1 else 0 })

/-- State touched by the save-config path: EEPROM, the three string
globals, and a flash-commit counter. -/
structure CfgState where
  eeprom : Eeprom
  hostnameLocal : List Nat
  storedSSID : List Nat
  storedPASS : List Nat
  commits : Nat

/-- Function `saveConfigWiFi(ssid, pass, host)` from main.cpp: write the three
fields, commit unconditionally, then read them back into the globals. -/
def saveConfigWiFi (st : CfgState) (ssid pass host : List Nat) : CfgState :=
  let m1 := eWriteStr st.eeprom SSID_ADDR ssid 32
  let m2 := eWriteStr m1 PASS_ADDR pass 64
  let m3 := eWriteStr m2 HOST_ADDR host 32
  { eeprom := m3
    hostnameLocal := eReadStr m3 HOST_ADDR st.hostnameLocal 32
    storedSSID := eReadStr m3 SSID_ADDR st.storedSSID 32
    storedPASS := eReadStr m3 PASS_ADDR st.storedPASS 64
    commits := st.commits + 1 }

/-- Result of `handleSave`: final state, HTTP response, and whether
`ESP.restart()` was reached (after the `delay(500)`). -/
structure SaveOutcome where
  state : CfgState
  code : Nat
  body : String
  restarted : Bool

/-- Function `handleSave()` from main.cpp, with the request arguments `ssid`,
`pass`, `host` as C-string values. -/
def handleSave (st : CfgState) (ssid pass host : List Nat) : SaveOutcome :=
  if ssid.length = 0 then
    { state := st, code := 400, body := "Missing SSID", restarted := false }
  else
    { state := saveConfigWiFi st ssid pass
        (if host.length ≠ 0 then host else cString st.hostnameLocal)
      code := 200
      body := "Saved. Rebooting..."
      restarted := true }

-- ============================================================
-- AP fallback heap guard (loop) and boot-time AP gate (setup)
-- ============================================================

/-- State of the AP-fallback arbitration: the `apFallback` flag, whether
the soft AP is currently up, EEPROM, a commit counter, and a counter of
teardown events (`WiFi.softAPdisconnect` calls from the guard). -/
structure NetState where
  apFallback : Bool
  apActive : Bool
  eeprom : Eeprom
  commits : Nat
  teardowns : Nat

/-- The heap guard at the end of `loop()`: if `apFallback` is set and the
free heap is below 10000, clear and persist the flag and tear the AP
down.  There is no branch that re-enables the flag or restarts the AP. -/
def loopHeapGuard (st : NetState) (freeHeap : Nat) : NetState :=
  if st.apFallback ∧ freeHeap < 10000 then
    { apFallback := false
      apActive := false
      eeprom := eepWrite st.eeprom APF_ADDR 0
      commits := st.commits + 1
      teardowns := st.teardowns + 1 }
  else st

/-- Iterating `loop()`'s heap guard over a trajectory of free-heap
samples, one per loop iteration. -/
def runHeapGuard (st : NetState) (heaps : List Nat) : NetState :=
  heaps.foldl loopHeapGuard st

/-- The boot-time gate in `setup()` (STA-connected branch): `startAP()`
runs iff `apFallback && ESP.getFreeHeap() > 12000`. -/
def setupFallbackAP (apFallback : Bool) (freeHeap : Nat) : Bool :=
  apFallback && decide (freeHeap > 12000)

-- ============================================================
-- setup() STA bring-up
-- ============================================================

/-- The STA wait loop in `setup()`: poll `WiFi.status()` while
`millis() - start < 10000`, advancing by the `delay(200)` each
iteration.  `statusAt e` tells whether the association has succeeded
`e` milliseconds after `WiFi.begin`. -/
def staWait (statusAt : Nat → Bool) (elapsed : Nat) : Bool :=
  if elapsed < 10000 then
    if statusAt elapsed then true
    else staWait statusAt (elapsed + 200)
  else false
termination_by 10000 - elapsed
decreasing_by omega

/-- Connectivity outcome of `setup()`. -/
structure BootOutcome where
  staAttempted : Bool
  staConnected : Bool
  apOnly : Bool

/-- The connectivity bring-up of `setup()`: attempt STA association only
when `strlen(storedSSID) > 1` (the `tryStartSTA` guard `strlen < 2` is
subsumed by this check), wait up to 10 s, and start AP-only mode iff the
attempt did not succeed.  `storedSSID` is the stored C-string value. -/
def setupConn (storedSSID : List Nat) (statusAt : Nat → Bool) : BootOutcome :=
  let connected :=
    if storedSSID.length > 1 then staWait statusAt 0 else false
  { staAttempted := decide (storedSSID.length > 1)
    staConnected := connected
    apOnly := !connected }

-- ============================================================
-- Concrete states for scenario evaluation
-- ============================================================

/-- The store produced by the default-initialisation branch of
`loadConfig` (boot-time globals): hostname `"remoteswitch"`, empty SSID
and password, fallback flag 1, relay state 0, then the magic byte. -/
def defaultedStore (mem : Eeprom) : Eeprom :=
  eepWrite (eepWrite (eepWrite (eWriteStr (eWriteStr (eWriteStr mem
    HOST_ADDR hostDefaultStr 32) SSID_ADDR [] 32) PASS_ADDR [] 64)
    APF_ADDR 1) STATE_ADDR 0) MAGIC_ADDR MAGIC_VAL

/-- A configuration-store state as after a default first boot. -/
def cfgInit : CfgState :=
  { eeprom := fun _ => 0
    hostnameLocal := pad hostDefaultStr 32
    storedSSID := pad [] 32
    storedPASS := pad [] 64
    commits := 0 }

/-- Does the trace publish the given payload (on any topic)? -/
def publishesPayload (evs : List Ev) (p : PubPayload) : Bool :=
  evs.any fun e =>
    match e with
    | Ev.mqttPublish _ q _ => q == p
    | _ => false

/-- The will payload registered by the (unique) connect attempt of a
trace, if any. -/
def willPayloadOf (evs : List Ev) : Option String :=
  evs.findSome? fun e =>
    match e with
    | Ev.mqttConnect _ _ _ _ w => some w
    | _ => none

/-- Persistence state at boot: `lastStateWrite = 0`, no commits, zeroed
EEPROM contents. -/
def persistInit : PersistState :=
  { eeprom := fun _ => 0, lastStateWrite := 0, commits := 0 }

/-- An actuator context with the relay off, as after `setup()` on a fresh
device. -/
def ctxOff : RelayCtx :=
  { relayState := 0, pin := false, persist := persistInit }

/-- Connectivity state with the fallback flag set and the soft AP up
(`APFallbackActive`). -/
def netActive : NetState :=
  { apFallback := true, apActive := true, eeprom := fun _ => 0
    commits := 0, teardowns := 0 }

-- ============================================================
-- Characterisation of eWriteStr
-- ============================================================

theorem eWriteStrFrom_outside (addr : Nat) (s : List Nat) (maxLen : Nat) :
    ∀ (k i : Nat) (mem : Eeprom) (x : Nat), maxLen - i ≤ k →
      (∀ j, i ≤ j → j < maxLen → x ≠ addr + j) →
      eWriteStrFrom mem addr s maxLen i x = mem x := by
  intro k
  induction k with
  | zero =>
    intro i mem x hk _hx
    have : ¬ i < maxLen := by omega
    rw [eWriteStrFrom, dif_neg this]
  | succ k ih =>
    intro i mem x hk hx
    rw [eWriteStrFrom]
    by_cases h : i < maxLen
    · rw [dif_pos h]
      rw [ih (i + 1) _ x (by omega) (fun j hj1 hj2 => hx j (by omega) hj2)]
      have hne : x ≠ addr + i := hx i le_rfl h
      simp [eepWrite, hne]
    · rw [dif_neg h]

theorem eWriteStrFrom_inside (addr : Nat) (s : List Nat) (maxLen : Nat) :
    ∀ (k i : Nat) (mem : Eeprom) (j : Nat), maxLen - i ≤ k →
      i ≤ j → j < maxLen →
      eWriteStrFrom mem addr s maxLen i (addr + j) =
        (if j < s.length then s.getD j 0 else 0) := by
  intro k
  induction k with
  | zero => intro i mem j hk hij hj; omega
  | succ k ih =>
    intro i mem j hk hij hj
    have hi : i < maxLen := by omega
    rw [eWriteStrFrom, dif_pos hi]
    by_cases hji : j = i
    · subst hji
      rw [eWriteStrFrom_outside addr s maxLen (k + 1) (j + 1) _ (addr + j)
        (by omega) (fun j2 hj2 _ => by omega)]
      simp [eepWrite]
    · exact ih (i + 1) _ j (by omega) (by omega) hj

/-- The window written by `eWriteStr`: the first `maxLen` bytes of `s`,
NUL padded to `maxLen` bytes. -/
theorem window_eWriteStr (mem : Eeprom) (addr : Nat) (s : List Nat)
    (maxLen : Nat) :
    window (eWriteStr mem addr s maxLen) addr maxLen = pad s maxLen := by
  apply List.ext_getElem
  · simp [window, pad]
    omega
  · intro n h1 h2
    have hn : n < maxLen := by simpa [window] using h1
    simp only [window, List.getElem_map, List.getElem_range]
    rw [eWriteStr, eWriteStrFrom_inside addr s maxLen maxLen 0 mem n
      (by omega) (by omega) hn]
    simp only [pad]
    rw [List.getElem_append]
    by_cases hns : n < s.length
    · have hlt : n < (s.take maxLen).length := by simp; omega
      rw [dif_pos hlt, if_pos hns, List.getElem_take,
        List.getD_eq_getElem s 0 hns]
    · have hge : ¬ n < (s.take maxLen).length := by simp; omega
      rw [dif_neg hge, if_neg hns]
      simp

theorem eWriteStr_outside (mem : Eeprom) (addr : Nat) (s : List Nat)
    (maxLen x : Nat) (hx : x < addr ∨ addr + maxLen ≤ x) :
    eWriteStr mem addr s maxLen x = mem x := by
  refine eWriteStrFrom_outside addr s maxLen maxLen 0 mem x (by omega) ?_
  intro j _ hj
  omega

-- ============================================================
-- Characterisation of eReadStr
-- ============================================================

theorem setSeq_length (i : Nat) :
    ∀ (t buf : List Nat), (setSeq buf i t).length = buf.length := by
  intro t
  induction t generalizing i with
  | nil => intro buf; rfl
  | cons c t ih =>
    intro buf
    rw [setSeq, ih (i + 1) (buf.set i c), List.length_set]

theorem eReadStrLoop_length (mem : Eeprom) (addr maxLen : Nat) :
    ∀ (k i : Nat) (buf : List Nat), maxLen - i ≤ k →
      (eReadStrLoop mem addr buf maxLen i).length = buf.length := by
  intro k
  induction k with
  | zero =>
    intro i buf hk
    rw [eReadStrLoop, dif_neg (by omega)]
  | succ k ih =>
    intro i buf hk
    rw [eReadStrLoop]
    by_cases h : i < maxLen
    · rw [dif_pos h]
      by_cases hz : mem (addr + i) = 0
      · simp [hz]
      · simp only [if_neg hz]
        rw [ih (i + 1) _ (by omega), List.length_set]
    · rw [dif_neg h]

/-- If the bytes stored from `addr + i` on are the NUL-free string `t`
followed by a NUL (all inside the window), the copy loop writes `t ++ [0]`
into the buffer starting at index `i`. -/
theorem eReadStrLoop_stored (mem : Eeprom) (addr maxLen : Nat) :
    ∀ (t : List Nat) (i : Nat) (buf : List Nat),
      i + t.length < maxLen →
      (∀ c ∈ t, c ≠ 0) →
      (∀ j, j < t.length → mem (addr + (i + j)) = t.getD j 0) →
      mem (addr + (i + t.length)) = 0 →
      eReadStrLoop mem addr buf maxLen i = setSeq buf i (t ++ [0]) := by
  intro t
  induction t with
  | nil =>
    intro i buf hlen _hnz _hval hzero
    rw [eReadStrLoop, dif_pos (by omega)]
    simp only [List.nil_append]
    have hb : mem (addr + i) = 0 := by simpa using hzero
    simp [hb, setSeq]
  | cons c t ih =>
    intro i buf hlen hnz hval hzero
    have hb : mem (addr + i) = c := by
      have := hval 0 (by simp)
      simpa using this
    have hcne : c ≠ 0 := hnz c (by simp)
    rw [eReadStrLoop, dif_pos (by omega)]
    simp only [hb, if_neg hcne]
    rw [ih (i + 1) (buf.set i c) (by simp at hlen ⊢; omega) ?_ ?_ ?_]
    · rfl
    · intro x hx; exact hnz x (by simp [hx])
    · intro j hj
      have := hval (j + 1) (by simp; omega)
      simpa [Nat.add_assoc, Nat.add_comm 1 j] using this
    · have : i + 1 + t.length = i + (c :: t).length := by simp; omega
      rw [this]; exact hzero

/-- Rewriting `setSeq` as take/append/drop, when the writes stay in bounds. -/
theorem setSeq_eq_append :
    ∀ (t : List Nat) (i : Nat) (buf : List Nat), i + t.length ≤ buf.length →
      setSeq buf i t = buf.take i ++ t ++ buf.drop (i + t.length) := by
  intro t
  induction t with
  | nil => intro i buf h; simp [setSeq]
  | cons c t ih =>
    intro i buf h
    have hi : i < buf.length := by simp at h; omega
    rw [setSeq, ih (i + 1) (buf.set i c) (by simp at h ⊢; omega)]
    rw [List.set_eq_take_cons_drop c hi]
    have h1 : (buf.take i ++ c :: buf.drop (i + 1)).take (i + 1) =
        buf.take i ++ [c] := by
      rw [List.take_append_eq_append_take]
      have : (buf.take i).length = i := by simp; omega
      rw [List.take_of_length_le (by omega), this]
      simp
    have h2 : (buf.take i ++ c :: buf.drop (i + 1)).drop (i + 1 + t.length) =
        buf.drop (i + (c :: t).length) := by
      rw [List.drop_append_eq_append_drop]
      have hl : (buf.take i).length = i := by simp; omega
      rw [List.drop_of_length_le (by omega), hl]
      have : i + 1 + t.length - i = t.length + 1 := by omega
      rw [this]
      simp only [List.drop_succ_cons, List.drop_drop, List.nil_append]
      congr 1
      simp
      omega
    rw [h1, h2]
    simp

/-- If no NUL is stored in the window from `addr + i` on, the copy loop
copies the whole rest of the window. -/
theorem eReadStrLoop_nz (mem : Eeprom) (addr maxLen : Nat) :
    ∀ (k i : Nat) (buf : List Nat), maxLen - i ≤ k →
      (∀ j, i ≤ j → j < maxLen → mem (addr + j) ≠ 0) →
      eReadStrLoop mem addr buf maxLen i =
        setSeq buf i
          ((List.range (maxLen - i)).map fun r => mem (addr + (i + r))) := by
  intro k
  induction k with
  | zero =>
    intro i buf hk _hnz
    rw [eReadStrLoop, dif_neg (by omega)]
    have : maxLen - i = 0 := by omega
    simp [this, setSeq]
  | succ k ih =>
    intro i buf hk hnz
    rw [eReadStrLoop]
    by_cases h : i < maxLen
    · rw [dif_pos h]
      have hb : mem (addr + i) ≠ 0 := hnz i le_rfl h
      simp only [if_neg hb]
      rw [ih (i + 1) _ (by omega) (fun j hj1 hj2 => hnz j (by omega) hj2)]
      have hm : maxLen - i = (maxLen - (i + 1)) + 1 := by omega
      rw [hm, List.range_succ_eq_map, List.map_cons, List.map_map]
      have hf : (fun r => mem (addr + (i + r))) ∘ Nat.succ =
          fun r => mem (addr + (i + 1 + r)) := by
        funext r
        have : i + Nat.succ r = i + 1 + r := by omega
        simp [Function.comp, this]
      rw [hf]
      simp [setSeq]
    · rw [dif_neg h]
      have : maxLen - i = 0 := by omega
      simp [this, setSeq]

theorem cString_append_zero (s X : List Nat) (hs : ∀ c ∈ s, c ≠ 0) :
    cString (s ++ 0 :: X) = s := by
  induction s with
  | nil => simp [cString]
  | cons c t ih =>
    have hc : c ≠ 0 := hs c (by simp)
    simp only [cString, List.cons_append, List.takeWhile_cons] at ih ⊢
    simp only [bne_iff_ne, ne_eq, hc, not_false_eq_true, if_true,
      List.cons.injEq, true_and]
    exact ih fun x hx => hs x (by simp [hx])

theorem cString_set_ge :
    ∀ (s X : List Nat) (j : Nat), s.length ≤ j → (∀ c ∈ s, c ≠ 0) →
      cString ((s ++ 0 :: X).set j 0) = s := by
  intro s
  induction s with
  | nil =>
    intro X j _ _
    cases j with
    | zero => simp [cString]
    | succ j => simp [cString, List.set_cons_succ]
  | cons c t ih =>
    intro X j hj hs
    have hc : c ≠ 0 := hs c (by simp)
    cases j with
    | zero => simp at hj
    | succ j =>
      simp only [List.cons_append, List.set_cons_succ]
      simp only [cString, List.takeWhile_cons, bne_iff_ne, ne_eq, hc,
        not_false_eq_true, if_true]
      have := ih X j (by simp at hj; omega) fun x hx => hs x (by simp [hx])
      simp only [cString] at this
      rw [this]

theorem map_range_getD (s : List Nat) (m : Nat) (hm : m ≤ s.length) :
    (List.range m).map (fun r => s.getD r 0) = s.take m := by
  apply List.ext_getElem
  · simp; omega
  · intro n h1 h2
    have hn : n < m := by simpa using h1
    rw [List.getElem_map, List.getElem_range, List.getElem_take,
      List.getD_eq_getElem s 0 (by omega)]

theorem eReadStr_length (mem : Eeprom) (addr : Nat) (buf : List Nat)
    (maxLen : Nat) : (eReadStr mem addr buf maxLen).length = buf.length := by
  rw [eReadStr, List.length_set,
    eReadStrLoop_length mem addr maxLen maxLen 0 buf (by omega)]

/-- The stored window of length `maxLen` determines the value read back:
writing the NUL-free string `s` then reading yields the first
`min (strlen s) (maxLen - 1)` bytes of `s`, and `eReadStr` always leaves a
NUL inside the first `maxLen` bytes of the buffer. -/
theorem eStr_roundtrip (s : List Nat) (maxLen addr : Nat) (mem : Eeprom)
    (buf : List Nat) (hml : 1 ≤ maxLen) (hbuf : buf.length = maxLen)
    (hs : ∀ c ∈ s, c ≠ 0) :
    cString (eReadStr (eWriteStr mem addr s maxLen) addr buf maxLen) =
      s.take (min s.length (maxLen - 1)) ∧
    ∀ (mem2 : Eeprom) (buf2 : List Nat), buf2.length = maxLen →
      (eReadStr mem2 addr buf2 maxLen).getD (maxLen - 1) 1 = 0 := by
  constructor
  · have hin : ∀ j, j < maxLen →
        eWriteStr mem addr s maxLen (addr + j) =
          (if j < s.length then s.getD j 0 else 0) := by
      intro j hj
      exact eWriteStrFrom_inside addr s maxLen maxLen 0 mem j (by omega)
        (by omega) hj
    by_cases hcase : s.length < maxLen
    · -- the string fits: the stored window is s followed by NULs
      have hloop : eReadStrLoop (eWriteStr mem addr s maxLen) addr buf
          maxLen 0 = setSeq buf 0 (s ++ [0]) := by
        apply eReadStrLoop_stored
        · omega
        · exact hs
        · intro j hj
          rw [Nat.zero_add, hin j (by omega), if_pos hj]
        · rw [Nat.zero_add, hin s.length hcase, if_neg (by omega)]
      have happ : setSeq buf 0 (s ++ [0]) =
          s ++ 0 :: buf.drop (s.length + 1) := by
        rw [setSeq_eq_append (s ++ [0]) 0 buf (by simp; omega)]
        simp
      rw [eReadStr, hloop, happ, cString_set_ge s _ (maxLen - 1)
        (by omega) hs]
      have : min s.length (maxLen - 1) = s.length := by omega
      rw [this, List.take_length]
    · -- the string is truncated: the stored window is NUL-free
      have hnz : ∀ j, 0 ≤ j → j < maxLen →
          eWriteStr mem addr s maxLen (addr + j) ≠ 0 := by
        intro j _ hj
        rw [hin j hj, if_pos (by omega)]
        have hjs : j < s.length := by omega
        rw [List.getD_eq_getElem s 0 hjs]
        exact hs _ (List.getElem_mem hjs)
      have hloop : eReadStrLoop (eWriteStr mem addr s maxLen) addr buf
          maxLen 0 = setSeq buf 0 (s.take maxLen) := by
        rw [eReadStrLoop_nz (eWriteStr mem addr s maxLen) addr maxLen maxLen
          0 buf (by omega) hnz]
        congr 1
        rw [Nat.sub_zero]
        rw [show ((List.range maxLen).map fun r =>
            eWriteStr mem addr s maxLen (addr + (0 + r))) =
            (List.range maxLen).map fun r => s.getD r 0 from ?_]
        · exact map_range_getD s maxLen (by omega)
        · apply List.map_congr_left
          intro a ha
          have haml : a < maxLen := by simpa using ha
          rw [Nat.zero_add, hin a haml, if_pos (by omega)]
      have htl : (s.take maxLen).length = maxLen := by simp; omega
      have happ : setSeq buf 0 (s.take maxLen) = s.take maxLen := by
        rw [setSeq_eq_append (s.take maxLen) 0 buf (by omega)]
        rw [Nat.zero_add, htl, ← hbuf, List.drop_length]
        simp
      rw [eReadStr, hloop, happ,
        List.set_eq_take_cons_drop 0 (by rw [htl]; omega)]
      have hd : (s.take maxLen).drop (maxLen - 1 + 1) = [] :=
        List.drop_eq_nil_of_le (by rw [htl]; omega)
      rw [hd, List.take_take]
      have hmin : min (maxLen - 1) maxLen = maxLen - 1 := by omega
      rw [hmin, cString_append_zero (s.take (maxLen - 1)) []
        (fun c hc => hs c (List.mem_of_mem_take hc))]
      congr 1
      omega
  · intro mem2 buf2 hbuf2
    have hlen : (eReadStrLoop mem2 addr buf2 maxLen 0).length = maxLen := by
      rw [eReadStrLoop_length mem2 addr maxLen maxLen 0 buf2 (by omega), hbuf2]
    rw [eReadStr, List.getD_eq_getElem _ 1 (by rw [List.length_set, hlen]; omega)]
    rw [List.getElem_set]
    simp

theorem pad_length (s : List Nat) (n : Nat) : (pad s n).length = n := by
  simp [pad]
  omega

theorem eWriteStr_inside (mem : Eeprom) (addr : Nat) (s : List Nat)
    (maxLen j : Nat) (hj : j < maxLen) :
    eWriteStr mem addr s maxLen (addr + j) =
      (if j < s.length then s.getD j 0 else 0) :=
  eWriteStrFrom_inside addr s maxLen maxLen 0 mem j (by omega) (by omega) hj

theorem window_congr (m m2 : Eeprom) (addr n : Nat)
    (h : ∀ j, j < n → m (addr + j) = m2 (addr + j)) :
    window m addr n = window m2 addr n := by
  apply List.ext_getElem
  · simp [window]
  · intro j h1 _h2
    have hj : j < n := by simpa [window] using h1
    simp only [window, List.getElem_map, List.getElem_range]
    exact h j hj

theorem mem_eq_of_window (m : Eeprom) (addr n : Nat) (l : List Nat)
    (hw : window m addr n = l) (j : Nat) (hj : j < n) :
    m (addr + j) = l.getD j 0 := by
  subst hw
  rw [List.getD_eq_getElem _ 0 (by simp [window]; omega)]
  simp [window]

theorem eReadStrLoop_congr (addr maxLen : Nat) :
    ∀ (k i : Nat) (buf : List Nat) (m m2 : Eeprom), maxLen - i ≤ k →
      (∀ j, j < maxLen → m (addr + j) = m2 (addr + j)) →
      eReadStrLoop m addr buf maxLen i = eReadStrLoop m2 addr buf maxLen i := by
  intro k
  induction k with
  | zero =>
    intro i buf m m2 hk _h
    rw [eReadStrLoop, eReadStrLoop, dif_neg (by omega), dif_neg (by omega)]
  | succ k ih =>
    intro i buf m m2 hk h
    rw [eReadStrLoop, eReadStrLoop]
    by_cases hi : i < maxLen
    · rw [dif_pos hi, dif_pos hi]
      rw [h i hi]
      by_cases hz : m2 (addr + i) = 0
      · simp [hz]
      · simp only [if_neg hz]
        exact ih (i + 1) _ m m2 (by omega) h
    · rw [dif_neg hi, dif_neg hi]

theorem eReadStr_congr (m m2 : Eeprom) (addr maxLen : Nat) (buf : List Nat)
    (h : ∀ j, j < maxLen → m (addr + j) = m2 (addr + j)) :
    eReadStr m addr buf maxLen = eReadStr m2 addr buf maxLen := by
  rw [eReadStr, eReadStr,
    eReadStrLoop_congr addr maxLen maxLen 0 buf m m2 (by omega) h]

/-- Reading a window that stores the NUL-free string `t` (shorter than the
window) into a buffer of the window's size. -/
theorem eReadStr_of_window (mem : Eeprom) (addr maxLen : Nat)
    (t buf : List Nat) (hbuf : buf.length = maxLen) (hlt : t.length < maxLen)
    (ht : ∀ c ∈ t, c ≠ 0) (hw : window mem addr maxLen = pad t maxLen) :
    eReadStr mem addr buf maxLen =
      (t ++ 0 :: buf.drop (t.length + 1)).set (maxLen - 1) 0 := by
  have hpad : pad t maxLen = t ++ List.replicate (maxLen - t.length) 0 := by
    rw [pad, List.take_of_length_le (by omega)]
  have hval : ∀ j, j < t.length → mem (addr + j) = t.getD j 0 := by
    intro j hj
    rw [mem_eq_of_window mem addr maxLen _ hw j (by omega), hpad,
      List.getD_append _ _ _ _ hj]
  have hz : mem (addr + t.length) = 0 := by
    rw [mem_eq_of_window mem addr maxLen _ hw t.length hlt, hpad,
      List.getD_eq_getElem _ 0 (by simp; omega), List.getElem_append]
    rw [dif_neg (by omega)]
    rw [List.getElem_replicate]
  rw [eReadStr,
    eReadStrLoop_stored mem addr maxLen t 0 buf (by omega) ht
      (fun j hj => by simpa using hval j hj) (by simpa using hz),
    setSeq_eq_append _ 0 buf (by simp; omega)]
  simp

/-- The C-string read back from a window storing the NUL-free string `t`. -/
theorem cString_eReadStr_of_window (mem : Eeprom) (addr maxLen : Nat)
    (t buf : List Nat) (hbuf : buf.length = maxLen) (hlt : t.length < maxLen)
    (ht : ∀ c ∈ t, c ≠ 0) (hw : window mem addr maxLen = pad t maxLen) :
    cString (eReadStr mem addr buf maxLen) = t := by
  rw [eReadStr_of_window mem addr maxLen t buf hbuf hlt ht hw]
  exact cString_set_ge t _ (maxLen - 1) (by omega) ht

-- Arithmetic facts about 32-bit wraparound subtraction.

theorem ulSub_of_le (a b : Nat) (hb : b ≤ a) (ha : a < 2 ^ 32) :
    ulSub a b = a - b := by
  have hbm : b % 2 ^ 32 = b := Nat.mod_eq_of_lt (by omega)
  rw [ulSub, hbm]
  have hx : a + (2 ^ 32 - b) = (a - b) + 2 ^ 32 := by omega
  rw [hx, Nat.add_mod_right, Nat.mod_eq_of_lt (by omega)]

-- Behaviour of the persistence throttle over call sequences.

theorem runSaves_no_commit (st : PersistState) :
    ∀ (calls : List (Nat × Nat)),
      (∀ c ∈ calls, ulSub c.1 st.lastStateWrite < STATE_WRITE_MIN) →
      runSaves st calls = st := by
  intro calls
  induction calls with
  | nil => intro _; rfl
  | cons c rest ih =>
    intro h
    have hc : ulSub c.1 st.lastStateWrite < STATE_WRITE_MIN :=
      h c (by simp)
    rw [runSaves, List.foldl_cons]
    rw [show saveRelayState st c.1 c.2 = st from by
      rw [saveRelayState, if_pos hc]]
    exact ih fun x hx => h x (by simp [hx])

theorem runSaves_window_le (a : Nat) (ha : a + STATE_WRITE_MIN ≤ 2 ^ 32) :
    ∀ (calls : List (Nat × Nat)) (st : PersistState),
      (∀ c ∈ calls, a ≤ c.1 ∧ c.1 < a + STATE_WRITE_MIN) →
      List.Pairwise (fun c c2 => c.1 ≤ c2.1) calls →
      (runSaves st calls).commits ≤ st.commits + 1 := by
  intro calls
  induction calls with
  | nil => intro st _ _; simp [runSaves]
  | cons c rest ih =>
    intro st hin hpw
    rw [runSaves, List.foldl_cons]
    by_cases h : ulSub c.1 st.lastStateWrite < STATE_WRITE_MIN
    · rw [show saveRelayState st c.1 c.2 = st from by
        rw [saveRelayState, if_pos h]]
      exact ih st (fun x hx => hin x (by simp [hx]))
        (List.pairwise_cons.mp hpw).2
    · have hst2 : saveRelayState st c.1 c.2 =
          { eeprom := eepWrite st.eeprom STATE_ADDR (if c.2 ≠ 0 then 1 else 0)
            lastStateWrite := c.1
            commits := st.commits + 1 } := by
        rw [saveRelayState, if_neg h]
      rw [hst2]
      have hrest : runSaves
          { eeprom := eepWrite st.eeprom STATE_ADDR (if c.2 ≠ 0 then 1 else 0)
            lastStateWrite := c.1
            commits := st.commits + 1 } rest =
          { eeprom := eepWrite st.eeprom STATE_ADDR (if c.2 ≠ 0 then 1 else 0)
            lastStateWrite := c.1
            commits := st.commits + 1 } := by
        apply runSaves_no_commit
        intro x hx
        have hxin := hin x (by simp [hx])
        have hcin := hin c (by simp)
        have hcx : c.1 ≤ x.1 := (List.pairwise_cons.mp hpw).1 x hx
        rw [ulSub_of_le x.1 c.1 hcx (by omega)]
        simp only [STATE_WRITE_MIN] at hxin hcin ⊢
        omega
      rw [runSaves] at hrest
      rw [hrest]

-- Behaviour of the loop() heap guard over heap trajectories.

theorem runHeapGuard_disabled (heaps : List Nat) :
    ∀ (st : NetState), st.apFallback = false → runHeapGuard st heaps = st := by
  induction heaps with
  | nil => intro st _; rfl
  | cons h rest ih =>
    intro st hfb
    rw [runHeapGuard, List.foldl_cons]
    rw [show loopHeapGuard st h = st from by
      rw [loopHeapGuard, if_neg (by simp [hfb])]]
    exact ih st hfb

theorem runHeapGuard_teardowns_le (heaps : List Nat) :
    ∀ (st : NetState), (runHeapGuard st heaps).teardowns ≤ st.teardowns + 1 := by
  induction heaps with
  | nil => intro st; simp [runHeapGuard]
  | cons h rest ih =>
    intro st
    rw [runHeapGuard, List.foldl_cons]
    by_cases hc : st.apFallback ∧ h < 10000
    · rw [show loopHeapGuard st h =
          { apFallback := false, apActive := false
            eeprom := eepWrite st.eeprom APF_ADDR 0
            commits := st.commits + 1
            teardowns := st.teardowns + 1 } from by
        rw [loopHeapGuard, if_pos hc]]
      rw [show (List.foldl loopHeapGuard _ rest) = runHeapGuard _ rest from rfl]
      rw [runHeapGuard_disabled rest _ rfl]
    · rw [show loopHeapGuard st h = st from by rw [loopHeapGuard, if_neg hc]]
      exact ih st

theorem runHeapGuard_teardown_hit (heaps : List Nat) :
    ∀ (st : NetState), st.apFallback = true →
      (∃ h ∈ heaps, h < 10000) →
      (runHeapGuard st heaps).teardowns = st.teardowns + 1 := by
  induction heaps with
  | nil => intro st _ hex; simp at hex
  | cons h rest ih =>
    intro st hfb hex
    rw [runHeapGuard, List.foldl_cons]
    by_cases hc : h < 10000
    · rw [show loopHeapGuard st h =
          { apFallback := false, apActive := false
            eeprom := eepWrite st.eeprom APF_ADDR 0
            commits := st.commits + 1
            teardowns := st.teardowns + 1 } from by
        rw [loopHeapGuard, if_pos ⟨by simp [hfb], hc⟩]]
      rw [show (List.foldl loopHeapGuard _ rest) = runHeapGuard _ rest from rfl]
      rw [runHeapGuard_disabled rest _ rfl]
    · rw [show loopHeapGuard st h = st from by
        rw [loopHeapGuard, if_neg (by simp [hc])]]
      apply ih st hfb
      rcases hex with ⟨x, hx, hxlt⟩
      rcases List.mem_cons.mp hx with h1 | h2
      · omega
      · exact ⟨x, h2, hxlt⟩

theorem runHeapGuard_apActive_mono (heaps : List Nat) :
    ∀ (st : NetState), (runHeapGuard st heaps).apActive = true →
      st.apActive = true := by
  induction heaps with
  | nil => intro st h; simpa [runHeapGuard] using h
  | cons h rest ih =>
    intro st hact
    rw [runHeapGuard, List.foldl_cons] at hact
    by_cases hc : st.apFallback ∧ h < 10000
    · exfalso
      rw [show loopHeapGuard st h =
          { apFallback := false, apActive := false
            eeprom := eepWrite st.eeprom APF_ADDR 0
            commits := st.commits + 1
            teardowns := st.teardowns + 1 } from by
        rw [loopHeapGuard, if_pos hc]] at hact
      rw [show (List.foldl loopHeapGuard _ rest) = runHeapGuard _ rest from
        rfl] at hact
      rw [runHeapGuard_disabled rest _ rfl] at hact
      simp at hact
    · rw [show loopHeapGuard st h = st from by
        rw [loopHeapGuard, if_neg hc]] at hact
      exact ih st hact

-- Behaviour of the setup() STA wait loop.

theorem staWait_never (statusAt : Nat → Bool)
    (h : ∀ e, e < 10000 → statusAt e = false) :
    ∀ (k elapsed : Nat), 10000 - elapsed ≤ k →
      staWait statusAt elapsed = false := by
  intro k
  induction k with
  | zero =>
    intro elapsed hk
    rw [staWait, if_neg (by omega)]
  | succ k ih =>
    intro elapsed hk
    rw [staWait]
    by_cases he : elapsed < 10000
    · rw [if_pos he, h elapsed he, if_neg (by simp)]
      exact ih (elapsed + 200) (by omega)
    · rw [if_neg he]

-- Facts about the defaulted store and loadConfig.

theorem eepWrite_ne (mem : Eeprom) (a v x : Nat) (h : x ≠ a) :
    eepWrite mem a v x = mem x := by
  simp [eepWrite, h]

theorem defaultedStore_window_host (mem : Eeprom) :
    window (defaultedStore mem) HOST_ADDR 32 = pad hostDefaultStr 32 := by
  rw [window_congr (defaultedStore mem)
      (eWriteStr mem HOST_ADDR hostDefaultStr 32) HOST_ADDR 32 ?_]
  · rw [window_eWriteStr]
  · intro j hj
    simp only [defaultedStore, HOST_ADDR, SSID_ADDR, PASS_ADDR, APF_ADDR,
      STATE_ADDR, MAGIC_ADDR, MAGIC_VAL]
    rw [eepWrite_ne _ _ _ _ (by omega), eepWrite_ne _ _ _ _ (by omega),
      eepWrite_ne _ _ _ _ (by omega),
      eWriteStr_outside _ _ _ _ _ (Or.inl (by omega)),
      eWriteStr_outside _ _ _ _ _ (Or.inl (by omega))]

theorem defaultedStore_window_ssid (mem : Eeprom) :
    window (defaultedStore mem) SSID_ADDR 32 = pad [] 32 := by
  rw [window_congr (defaultedStore mem)
      (eWriteStr (eWriteStr mem HOST_ADDR hostDefaultStr 32) SSID_ADDR []
        32) SSID_ADDR 32 ?_]
  · rw [window_eWriteStr]
  · intro j hj
    simp only [defaultedStore, HOST_ADDR, SSID_ADDR, PASS_ADDR, APF_ADDR,
      STATE_ADDR, MAGIC_ADDR, MAGIC_VAL]
    rw [eepWrite_ne _ _ _ _ (by omega), eepWrite_ne _ _ _ _ (by omega),
      eepWrite_ne _ _ _ _ (by omega),
      eWriteStr_outside _ _ _ _ _ (Or.inl (by omega))]

theorem defaultedStore_window_pass (mem : Eeprom) :
    window (defaultedStore mem) PASS_ADDR 64 = pad [] 64 := by
  rw [window_congr (defaultedStore mem)
      (eWriteStr (eWriteStr (eWriteStr mem HOST_ADDR hostDefaultStr 32)
        SSID_ADDR [] 32) PASS_ADDR [] 64) PASS_ADDR 64 ?_]
  · rw [window_eWriteStr]
  · intro j hj
    simp only [defaultedStore, HOST_ADDR, SSID_ADDR, PASS_ADDR, APF_ADDR,
      STATE_ADDR, MAGIC_ADDR, MAGIC_VAL]
    rw [eepWrite_ne _ _ _ _ (by omega), eepWrite_ne _ _ _ _ (by omega),
      eepWrite_ne _ _ _ _ (by omega)]

theorem defaultedStore_flags (mem : Eeprom) :
    defaultedStore mem APF_ADDR = 1 ∧ defaultedStore mem STATE_ADDR = 0 ∧
      defaultedStore mem MAGIC_ADDR = MAGIC_VAL := by
  refine ⟨?_, ?_, ?_⟩ <;>
    simp [defaultedStore, eepWrite, APF_ADDR, STATE_ADDR, MAGIC_ADDR,
      MAGIC_VAL]

theorem loadConfig_mismatch (mem : Eeprom)
    (hne : mem MAGIC_ADDR ≠ MAGIC_VAL) :
    loadConfig mem bootConfig =
      (defaultedStore mem,
       { hostnameLocal :=
           eReadStr (defaultedStore mem) HOST_ADDR bootConfig.hostnameLocal
             32
         storedSSID :=
           eReadStr (defaultedStore mem) SSID_ADDR bootConfig.storedSSID 32
         storedPASS :=
           eReadStr (defaultedStore mem) PASS_ADDR bootConfig.storedPASS 64
         apFallback := defaultedStore mem APF_ADDR == 1
         relayState :=
           if defaultedStore mem STATE_ADDR = 1 then 1 else 0 }) := by
  have hcs : cString bootConfig.hostnameLocal = hostDefaultStr := by decide
  have hA : (if bootConfig.apFallback then 1 else 0 : Nat) = 1 := rfl
  have hR : (if bootConfig.relayState ≠ 0 then 1 else 0 : Nat) = 0 := rfl
  simp only [loadConfig, defaultedStore]
  rw [if_pos hne, hcs, hA, hR]

theorem loadConfig_match (mem : Eeprom) (heq : mem MAGIC_ADDR = MAGIC_VAL) :
    (loadConfig mem bootConfig).1 = mem := by
  simp only [loadConfig]
  rw [if_neg (by simp [heq])]

-- ============================================================
-- Claim theorems
-- ============================================================

/-- C9: `applyRelay` is idempotent on pin and canonical state — calling
it twice with the same argument yields the same final pin level and
relay state as one call — and every call re-asserts the pin (emits a pin
write) and invokes the (debounced) persistence operation. -/
theorem applyRelay_idempotent (ctx : RelayCtx) (now now2 s : Nat) :
    (applyRelay (applyRelay ctx now s).1 now2 s).1.relayState =
      (applyRelay ctx now s).1.relayState ∧
    (applyRelay (applyRelay ctx now s).1 now2 s).1.pin =
      (applyRelay ctx now s).1.pin ∧
    (applyRelay ctx now s).2 =
      [Ev.pinWrite (decide (s ≠ 0)), Ev.persistCall (if s ≠ 0 then 1 else 0)] ∧
    (applyRelay (applyRelay ctx now s).1 now2 s).2 =
      [Ev.pinWrite (decide (s ≠ 0)),
       Ev.persistCall (if s ≠ 0 then 1 else 0)] := by
  by_cases h : s = 0 <;> simp [applyRelay, h]

/-- C8: malformed payloads, payloads with a missing or mistyped field,
and payloads with a non-matching target identifier are dropped silently
by `mqttCallback`: the state is unchanged and no event is emitted. -/
theorem mqttCallback_drops_invalid (ctx : RelayCtx) (now : Nat) :
    mqttCallback ctx now CmdPayload.malformed = (ctx, []) ∧
    (∀ cmd, mqttCallback ctx now (CmdPayload.fields none cmd) = (ctx, [])) ∧
    (∀ sw, mqttCallback ctx now (CmdPayload.fields sw none) = (ctx, [])) ∧
    (∀ swv cmd, swv ≠ 1 →
      mqttCallback ctx now (CmdPayload.fields (some swv) cmd) =
        (ctx, [])) := by
  refine ⟨rfl, fun cmd => ?_, fun sw => ?_, fun swv cmd h => ?_⟩
  · cases cmd <;> rfl
  · cases sw <;> rfl
  · cases cmd
    · rfl
    · simp [mqttCallback, h]

/-- Witness for C8: the concrete mismatched-target command of scenario D
is dropped with no state change and no publish. -/
theorem mqttCallback_drops_invalid_witness :
    (2 : Int) ≠ 1 ∧
      mqttCallback ctxOff 0 (CmdPayload.fields (some 2) (some "on")) =
        (ctxOff, []) :=
  ⟨by decide,
   (mqttCallback_drops_invalid ctxOff 0).2.2.2 2 (some "on") (by decide)⟩

/-- C3 counterexample: a valid `{switch:1, command:"on"}` received while
connected turns the relay on but publishes nothing — the claimed
follow-up retained status publish does not happen in the handler. -/
theorem mqttCallback_no_publish_counterexample :
    (mqttCallback ctxOff 6000
      (CmdPayload.fields (some 1) (some "on"))).1.relayState = 1 ∧
    (mqttCallback ctxOff 6000
      (CmdPayload.fields (some 1) (some "on"))).2.filter isPublish = [] :=
  ⟨rfl, rfl⟩

/-- C3 amended: for every valid `on`/`off` command the handler invokes
`applyRelay` with the corresponding value, and publishes nothing; the
retained status document is published only by `mqttReconnect`. -/
theorem mqttCallback_valid_cmd (ctx : RelayCtx) (now : Nat) :
    mqttCallback ctx now (CmdPayload.fields (some 1) (some "on")) =
      applyRelay ctx now 1 ∧
    mqttCallback ctx now (CmdPayload.fields (some 1) (some "off")) =
      applyRelay ctx now 0 ∧
    (mqttCallback ctx now
      (CmdPayload.fields (some 1) (some "on"))).2.filter isPublish = [] ∧
    (mqttCallback ctx now
      (CmdPayload.fields (some 1) (some "off"))).2.filter isPublish = [] := by
  refine ⟨?_, ?_, ?_, ?_⟩ <;> simp [mqttCallback, applyRelay, isPublish]

/-- C2 counterexample: on a successful connect the registered will
payload is `"rs-1 lost"`, not `"offline"`, and no `"online"` (or
`"offline"`) birth/availability message is published. -/
theorem mqttReconnect_no_birth_counterexample :
    willPayloadOf (mqttReconnect false true "rs-1" 0) = some "rs-1 lost" ∧
    "rs-1 lost" ≠ "offline" ∧
    publishesPayload (mqttReconnect false true "rs-1" 0)
      (PubPayload.raw "online") = false ∧
    publishesPayload (mqttReconnect false true "rs-1" 0)
      (PubPayload.raw "offline") = false :=
  ⟨rfl, by decide, rfl, rfl⟩

/-- C2 amended: on every successful connect transition the client has
registered a last-will on the alert topic (QoS 1, retained) with payload
`clientId ++ " lost"`, subscribes to the command topic, and publishes
the current actuator status retained on the status topic; no birth
message is published. -/
theorem mqttReconnect_on_connect (clientId : String) (relayState : Nat)
    (ok : Bool) :
    mqttReconnect true ok clientId relayState = [] ∧
    mqttReconnect false false clientId relayState =
      [Ev.mqttConnect clientId LWT_TOPIC 1 true (clientId ++ " lost")] ∧
    mqttReconnect false true clientId relayState =
      [Ev.mqttConnect clientId LWT_TOPIC 1 true (clientId ++ " lost"),
       Ev.mqttSubscribe SUB_TOPIC,
       Ev.mqttPublish PUB_TOPIC
         (PubPayload.status 1 (if relayState ≠ 0 then "on" else "off") true)
         true] ∧
    publishesPayload (mqttReconnect false true clientId relayState)
      (PubPayload.raw "online") = false := by
  refine ⟨rfl, rfl, rfl, ?_⟩
  simp [mqttReconnect, publishesPayload, beq_iff_eq]

/-- C7: at boot, STA association is attempted iff the stored network name
has more than one character; with an empty or one-character name the
device goes directly to AP-only mode with no attempt, and an attempt
that never succeeds within the 10 s window also ends in AP-only mode. -/
theorem setupConn_spec (ssid : List Nat) (statusAt : Nat → Bool) :
    (setupConn ssid statusAt).staAttempted = decide (ssid.length > 1) ∧
    (ssid.length ≤ 1 →
      setupConn ssid statusAt =
        { staAttempted := false, staConnected := false, apOnly := true }) ∧
    ((∀ e, e < 10000 → statusAt e = false) →
      (setupConn ssid statusAt).apOnly = true) := by
  refine ⟨rfl, fun hle => ?_, fun hnever => ?_⟩
  · have h1 : ¬ ssid.length > 1 := by omega
    simp [setupConn, h1]
  · by_cases h1 : ssid.length > 1
    · simp [setupConn, h1, staWait_never statusAt hnever 10000 0 (by omega)]
    · simp [setupConn, h1]

/-- Witness for C7: scenario A — an empty stored network name boots
directly to AP-only with no client attempt. -/
theorem setupConn_spec_witness :
    ([] : List Nat).length ≤ 1 ∧
      setupConn [] (fun _ => false) =
        { staAttempted := false, staConnected := false, apOnly := true } :=
  ⟨by decide, (setupConn_spec [] (fun _ => false)).2.1 (by decide)⟩

/-- C4 counterexample: three `saveRelayState` calls spaced 100 ms apart
starting 100 ms after boot produce zero commits, not exactly one —
`lastStateWrite` starts at 0, so the first call is already inside the
cooldown. -/
theorem saveRelayState_zero_commits_counterexample :
    (runSaves persistInit [(100, 1), (200, 1), (300, 1)]).commits = 0 ∧
    (runSaves persistInit [(100, 1), (200, 1), (300, 1)]).commits ≠ 1 :=
  ⟨rfl, by decide⟩

/-- C4 amended: `saveRelayState` commits iff the 32-bit difference
`now - lastStateWrite` is at least the 5000 ms cooldown, where
`lastStateWrite` is 0 at boot and afterwards the time of the last
commit; a call inside the cooldown is a silent no-op, a call at/after
the cooldown commits, and a nondecreasing call sequence confined to one
cooldown-length window yields at most one commit (zero when every call
is inside the cooldown of the previous write). -/
theorem saveRelayState_throttle :
    (∀ (st : PersistState) (now s : Nat),
      ulSub now st.lastStateWrite < STATE_WRITE_MIN →
      saveRelayState st now s = st) ∧
    (∀ (st : PersistState) (now s : Nat),
      STATE_WRITE_MIN ≤ ulSub now st.lastStateWrite →
      (saveRelayState st now s).commits = st.commits + 1 ∧
      (saveRelayState st now s).lastStateWrite = now ∧
      (saveRelayState st now s).eeprom STATE_ADDR =
        (if s ≠ 0 then 1 else 0)) ∧
    (∀ (st : PersistState) (calls : List (Nat × Nat)) (a : Nat),
      a + STATE_WRITE_MIN ≤ 2 ^ 32 →
      (∀ c ∈ calls, a ≤ c.1 ∧ c.1 < a + STATE_WRITE_MIN) →
      List.Pairwise (fun c c2 => c.1 ≤ c2.1) calls →
      (runSaves st calls).commits ≤ st.commits + 1) := by
  refine ⟨fun st now s h => by rw [saveRelayState, if_pos h],
    fun st now s h => ?_,
    fun st calls a ha hin hpw => runSaves_window_le a ha calls st hin hpw⟩
  rw [saveRelayState, if_neg (by omega)]
  exact ⟨rfl, rfl, by simp [eepWrite]⟩

/-- Witness for C4 (amended): a single call 6000 ms after boot, past the
cooldown, commits exactly once. -/
theorem saveRelayState_throttle_witness :
    STATE_WRITE_MIN ≤ ulSub 6000 persistInit.lastStateWrite ∧
      (saveRelayState persistInit 6000 1).commits =
        persistInit.commits + 1 ∧
      (saveRelayState persistInit 6000 1).lastStateWrite = 6000 ∧
      (saveRelayState persistInit 6000 1).eeprom STATE_ADDR =
        (if (1 : Nat) ≠ 0 then 1 else 0) :=
  ⟨by decide, saveRelayState_throttle.2.1 persistInit 6000 1 (by decide)⟩

/-- C1 counterexample: from `APFallbackActive`, a heap sample below the
low watermark (9000 < 10000) tears the AP down, but a later sample
strictly above the high watermark (13000 > 12000) does not restore it:
the flag stays cleared and the AP stays down. -/
theorem heapGuard_no_restore_counterexample :
    (runHeapGuard netActive [9000, 13000]).teardowns = 1 ∧
    (runHeapGuard netActive [9000, 13000]).apActive = false ∧
    (runHeapGuard netActive [9000, 13000]).apFallback = false :=
  ⟨rfl, rfl, rfl⟩

/-- C1 amended: when free memory drops below the low watermark (10000)
while the fallback flag is set, the AP is torn down exactly once and the
flag is cleared and persisted; no trajectory — in particular no recovery
strictly above 12000 — restores the AP or the flag during the same run.
The high watermark 12000 is consulted only by the boot-time gate in
`setup()`. -/
theorem heapGuard_teardown_once :
    (∀ (st : NetState) (heaps : List Nat),
      (runHeapGuard st heaps).teardowns ≤ st.teardowns + 1) ∧
    (∀ (st : NetState) (heaps : List Nat), st.apFallback = true →
      (∃ h ∈ heaps, h < 10000) →
      (runHeapGuard st heaps).teardowns = st.teardowns + 1) ∧
    (∀ (st : NetState) (heaps : List Nat), st.apFallback = false →
      runHeapGuard st heaps = st) ∧
    (∀ (st : NetState) (heaps : List Nat),
      (runHeapGuard st heaps).apActive = true → st.apActive = true) ∧
    (∀ (apf : Bool) (heap : Nat),
      setupFallbackAP apf heap = (apf && decide (heap > 12000))) :=
  ⟨fun st heaps => runHeapGuard_teardowns_le heaps st,
   fun st heaps h1 h2 => runHeapGuard_teardown_hit heaps st h1 h2,
   fun st heaps h => runHeapGuard_disabled heaps st h,
   fun st heaps h => runHeapGuard_apActive_mono heaps st h,
   fun _apf _heap => rfl⟩

/-- Witness for C1 (amended): scenario E's first half — a sub-watermark
heap sample from the active state tears the AP down exactly once. -/
theorem heapGuard_teardown_once_witness :
    netActive.apFallback = true ∧ (∃ h ∈ [9000], h < 10000) ∧
      (runHeapGuard netActive [9000]).teardowns = netActive.teardowns + 1 :=
  ⟨rfl, by decide,
   heapGuard_teardown_once.2.1 netActive [9000] rfl (by decide)⟩

/-- C5: on a sentinel (magic byte) mismatch, `loadConfig` resets every
field of the configuration record to its documented default — hostname
`"remoteswitch"`, empty SSID and password, fallback flag set, relay
state off — persists the fully defaulted record including the sentinel
before returning (never a partial default), and on a matching sentinel
leaves the store untouched. -/
theorem loadConfig_sentinel (mem : Eeprom) :
    (mem MAGIC_ADDR ≠ MAGIC_VAL →
      (loadConfig mem bootConfig).2 = bootConfig ∧
      (loadConfig mem bootConfig).1 MAGIC_ADDR = MAGIC_VAL ∧
      window (loadConfig mem bootConfig).1 HOST_ADDR 32 =
        pad hostDefaultStr 32 ∧
      window (loadConfig mem bootConfig).1 SSID_ADDR 32 = pad [] 32 ∧
      window (loadConfig mem bootConfig).1 PASS_ADDR 64 = pad [] 64 ∧
      (loadConfig mem bootConfig).1 APF_ADDR = 1 ∧
      (loadConfig mem bootConfig).1 STATE_ADDR = 0) ∧
    (mem MAGIC_ADDR = MAGIC_VAL → (loadConfig mem bootConfig).1 = mem) := by
  constructor
  · intro hne
    have hfull := loadConfig_mismatch mem hne
    have hH : eReadStr (defaultedStore mem) HOST_ADDR
        bootConfig.hostnameLocal 32 = pad hostDefaultStr 32 := by
      rw [eReadStr_of_window _ _ _ hostDefaultStr _ (by decide) (by decide)
        (by decide) (defaultedStore_window_host mem)]
      decide
    have hS : eReadStr (defaultedStore mem) SSID_ADDR
        bootConfig.storedSSID 32 = pad [] 32 := by
      rw [eReadStr_of_window _ _ _ [] _ (by decide) (by decide)
        (by decide) (defaultedStore_window_ssid mem)]
      decide
    have hP : eReadStr (defaultedStore mem) PASS_ADDR
        bootConfig.storedPASS 64 = pad [] 64 := by
      rw [eReadStr_of_window _ _ _ [] _ (by decide) (by decide)
        (by decide) (defaultedStore_window_pass mem)]
      decide
    rw [hfull]
    refine ⟨?_, (defaultedStore_flags mem).2.2,
      defaultedStore_window_host mem, defaultedStore_window_ssid mem,
      defaultedStore_window_pass mem, (defaultedStore_flags mem).1,
      (defaultedStore_flags mem).2.1⟩
    show ({ hostnameLocal := _, storedSSID := _, storedPASS := _,
            apFallback := _, relayState := _ } : Config) = bootConfig
    rw [hH, hS, hP, (defaultedStore_flags mem).1,
      (defaultedStore_flags mem).2.1]
    rfl
  · exact loadConfig_match mem

/-- Witness for C5: a zeroed store (sentinel 0 ≠ 0xA5) is fully
defaulted; a store whose sentinel matches is left untouched. -/
theorem loadConfig_sentinel_witness :
    ((fun _ => 0 : Eeprom) MAGIC_ADDR ≠ MAGIC_VAL ∧
      (loadConfig (fun _ => 0) bootConfig).2 = bootConfig) ∧
    ((fun _ => MAGIC_VAL : Eeprom) MAGIC_ADDR = MAGIC_VAL ∧
      (loadConfig (fun _ => MAGIC_VAL) bootConfig).1 =
        (fun _ => MAGIC_VAL)) :=
  ⟨⟨by decide, ((loadConfig_sentinel (fun _ => 0)).1 (by decide)).1⟩,
   ⟨rfl, (loadConfig_sentinel (fun _ => MAGIC_VAL)).2 rfl⟩⟩

/-- C6: `handleSave` rejects an empty SSID as a complete no-op with a
surfaced 400 error, no commit and no restart; for a non-empty SSID it
writes all fields, commits unconditionally, responds 200 and restarts
(after the bounded 500 ms delay), the stored SSID value being the
request's SSID truncated to the field's 31-character capacity. -/
theorem handleSave_spec (st : CfgState) (ssid pass host : List Nat)
    (hbufS : st.storedSSID.length = 32) (hs : ∀ c ∈ ssid, c ≠ 0) :
    (ssid = [] →
      handleSave st ssid pass host =
        { state := st, code := 400, body := "Missing SSID",
          restarted := false }) ∧
    (ssid ≠ [] →
      (handleSave st ssid pass host).code = 200 ∧
      (handleSave st ssid pass host).restarted = true ∧
      (handleSave st ssid pass host).state.commits = st.commits + 1 ∧
      cString (handleSave st ssid pass host).state.storedSSID =
        ssid.take (min ssid.length 31)) := by
  constructor
  · intro h
    subst h
    rfl
  · intro h
    have hlen : ¬ ssid.length = 0 := by
      simpa using fun hx => h (List.length_eq_zero.mp hx)
    have hcong : ∀ hostArg : List Nat,
        eReadStr (eWriteStr (eWriteStr (eWriteStr st.eeprom SSID_ADDR ssid
          32) PASS_ADDR pass 64) HOST_ADDR hostArg 32) SSID_ADDR
          st.storedSSID 32 =
        eReadStr (eWriteStr st.eeprom SSID_ADDR ssid 32) SSID_ADDR
          st.storedSSID 32 := by
      intro hostArg
      apply eReadStr_congr
      intro j hj
      simp only [SSID_ADDR, PASS_ADDR, HOST_ADDR]
      rw [eWriteStr_outside _ _ _ _ _ (Or.inr (by omega)),
        eWriteStr_outside _ _ _ _ _ (Or.inl (by omega))]
    have hrt := (eStr_roundtrip ssid 32 SSID_ADDR st.eeprom st.storedSSID
      (by omega) hbufS hs).1
    have hun : handleSave st ssid pass host =
        { state := saveConfigWiFi st ssid pass
            (if host.length ≠ 0 then host else cString st.hostnameLocal)
          code := 200, body := "Saved. Rebooting...", restarted := true } := by
      rw [handleSave, if_neg hlen]
    rw [hun]
    refine ⟨rfl, rfl, rfl, ?_⟩
    simp only [saveConfigWiFi]
    rw [hcong, hrt]

/-- Witness for C6: empty SSID is rejected unchanged; SSID `"ab"` is
accepted, committed, and stored as `"ab"`. -/
theorem handleSave_spec_witness :
    (cfgInit.storedSSID.length = 32 ∧
      handleSave cfgInit [] [] [] =
        { state := cfgInit, code := 400, body := "Missing SSID",
          restarted := false }) ∧
    ((∀ c ∈ ([97, 98] : List Nat), c ≠ 0) ∧
      (handleSave cfgInit [97, 98] [] []).code = 200 ∧
      (handleSave cfgInit [97, 98] [] []).restarted = true ∧
      (handleSave cfgInit [97, 98] [] []).state.commits =
        cfgInit.commits + 1 ∧
      cString (handleSave cfgInit [97, 98] [] []).state.storedSSID =
        ([97, 98] : List Nat).take
          (min ([97, 98] : List Nat).length 31)) :=
  ⟨⟨by decide,
    (handleSave_spec cfgInit [] [] [] (by decide) (by decide)).1 rfl⟩,
   ⟨by decide,
    (handleSave_spec cfgInit [97, 98] [] [] (by decide) (by decide)).2
      (by decide)⟩⟩

/-- C10: EEPROM string round-trip with truncation — for every NUL-free
string `s` and capacity `maxLen ≥ 1`, writing with `eWriteStr` and
reading back with `eReadStr` yields exactly the first
`min (strlen s) (maxLen - 1)` characters of `s` as the buffer's
C-string value (the identity whenever `strlen s < maxLen`), and
`eReadStr` always leaves the buffer NUL-terminated within `maxLen`
bytes for arbitrary stored contents. -/
theorem eStr_roundtrip_spec (s : List Nat) (maxLen addr : Nat)
    (mem : Eeprom) (buf : List Nat) (hml : 1 ≤ maxLen)
    (hbuf : buf.length = maxLen) (hs : ∀ c ∈ s, c ≠ 0) :
    cString (eReadStr (eWriteStr mem addr s maxLen) addr buf maxLen) =
      s.take (min s.length (maxLen - 1)) ∧
    ∀ (mem2 : Eeprom) (buf2 : List Nat), buf2.length = maxLen →
      (eReadStr mem2 addr buf2 maxLen).getD (maxLen - 1) 1 = 0 :=
  eStr_roundtrip s maxLen addr mem buf hml hbuf hs

/-- Witness for C10: round-tripping `"hi"` through a 4-byte field over a
nonzero-filled store returns `"hi"`. -/
theorem eStr_roundtrip_spec_witness :
    (1 ≤ 4 ∧ ([1, 2, 3, 4] : List Nat).length = 4 ∧
      (∀ c ∈ ([104, 105] : List Nat), c ≠ 0)) ∧
    cString (eReadStr (eWriteStr (fun _ => 7) 0 [104, 105] 4) 0
      [1, 2, 3, 4] 4) = [104, 105] :=
  ⟨⟨by decide, by decide, by decide⟩,
   by
    have h := (eStr_roundtrip_spec [104, 105] 4 0 (fun _ => 7) [1, 2, 3, 4]
      (by decide) (by decide) (by decide)).1
    exact h.trans (by decide)⟩

end BedTime
